import Mathlib

/-!
Verification of the trade-execution core of the stock-trading-api repository
(`src/app/routes.py`, `src/app/market_data.py`, `src/app/models.py`,
`src/app/config.py`), as a shallow embedding.

Modelling conventions:
* monetary amounts, prices and quantities (Python floats) are embedded as `ℚ`;
* instants (Python `datetime` values) are embedded as unix seconds `ℤ`;
* the SQLAlchemy session is embedded as an explicit `Db` state; each route
  returns the committed state together with its result, and a failing route
  returns the original state (routes commit exactly once, at the end, and roll
  back / discard the uncommitted session on any exception);
* the Alpha Vantage network calls are embedded as oracle functions, and each
  route result records how many provider calls the route performed;
* Python's `str.upper` is embedded as character-wise `Char.toUpper`
  (ticker symbols are ASCII, where the two functions agree).
-/

/-- Python `str.upper`, character-wise ASCII uppercasing. -/
def upper (s : String) : String := ⟨s.data.map Char.toUpper⟩

/-- Enum `MarketType` of `app/models.py`. -/
inductive MarketType where
  | stock
  | crypto
  | forex
deriving DecidableEq, Repr

/-- Enum `TradeSide` of `app/models.py`. -/
inductive TradeSide where
  | buy
  | sell
deriving DecidableEq, Repr

/-- Trading-related fields of `Settings` in `app/config.py`, with the
default values given there. -/
structure Settings where
  DEFAULT_BALANCE : ℚ := 100000
  STOCK_TRANSACTION_FEE : ℚ := 0
  CRYPTO_TRANSACTION_FEE : ℚ := 0
  FOREX_TRANSACTION_FEE : ℚ := 0
deriving Repr

/-- The `settings` object built from `config.py` defaults (no env overrides). -/
def defaultSettings : Settings := {}

namespace MarketDataService

/-- Constant `MarketDataService.CRYPTO_SYMBOLS` in `app/market_data.py`. -/
def CRYPTO_SYMBOLS : List String :=
  ["BTC", "ETH", "USDT", "BNB", "XRP", "ADA", "DOGE", "SOL", "TRX", "DOT"]

/-- Constant `MarketDataService.FOREX_PAIRS` in `app/market_data.py`. -/
def FOREX_PAIRS : List String :=
  ["EUR", "GBP", "JPY", "CHF", "AUD", "CAD", "NZD", "CNY"]

/-- Function `MarketDataService.detect_market` in `app/market_data.py`. -/
def detect_market (symbol : String) : MarketType :=
  let symbol_upper := upper symbol
  if symbol_upper ∈ CRYPTO_SYMBOLS then MarketType.crypto
  else if symbol_upper.length = 6 ∧ symbol_upper.take 3 ∈ FOREX_PAIRS then MarketType.forex
  else MarketType.stock

end MarketDataService

/-- Outcome of one provider network call for a current price: the parsed
price together with `datetime.now` at response time.  The symbol
classification and the `source` tag are added by the service code itself. -/
structure PriceQuote where
  price : ℚ
  timestamp : ℤ
deriving DecidableEq, Repr

/-- The upstream quote provider: for a symbol, either a quote or an error
message (network failure, missing symbol, ...). -/
def Provider : Type := String → Except String PriceQuote

/-- The dictionary returned by `MarketDataService.get_price`. -/
structure PriceData where
  symbol : String
  market : MarketType
  price : ℚ
  source : String
  timestamp : ℤ
deriving DecidableEq, Repr

namespace MarketDataService

/-- Function `MarketDataService.get_price` in `app/market_data.py`: classify the
symbol, perform one provider call, and package the result with
`source = 'alpha_vantage'`.  All three market branches
(`_get_stock_price`, `_get_crypto_price`, `_get_forex_price`) build the
same dictionary shape. -/
def get_price (prov : Provider) (symbol : String) : Except String PriceData :=
  match prov symbol with
  | Except.error e => Except.error e
  | Except.ok q =>
      Except.ok ⟨symbol, detect_market symbol, q.price, "alpha_vantage", q.timestamp⟩

end MarketDataService

/-- A `Holding` row of `app/models.py` (the `user_id` column is implicit:
the embedded state is that of the single authenticated user). -/
structure Holding where
  symbol : String
  market : MarketType
  quantity : ℚ
  average_price : ℚ
deriving DecidableEq, Repr

/-- A `Trade` row of `app/models.py` (ditto; `id` and `executed_at` are
generated columns not relevant to any claim). -/
structure TradeRec where
  symbol : String
  market : MarketType
  side : TradeSide
  quantity : ℚ
  price : ℚ
  transaction_fee : ℚ
  total_cost : ℚ
deriving DecidableEq, Repr

/-- A `PriceCache` row of `app/models.py`. -/
structure CacheRow where
  symbol : String
  market : MarketType
  price : ℚ
  source : String
  timestamp : ℤ
  cached_at : ℤ
deriving DecidableEq, Repr

/-- A `HistoricalData` row of `app/models.py` (`open` is a Lean keyword,
hence the trailing underscore). -/
structure HistRow where
  symbol : String
  market : MarketType
  resolution : String
  timestamp : ℤ
  open_ : ℚ
  high : ℚ
  low : ℚ
  close : ℚ
  volume : ℚ
deriving DecidableEq, Repr

/-- The database state visible to the routes: the authenticated user's
balance, their holdings and trades, and the two shared cache tables. -/
structure Db where
  balance : ℚ
  holdings : List Holding
  trades : List TradeRec
  priceCache : List CacheRow
  historical : List HistRow
deriving DecidableEq, Repr

/-- Schema `TradeRequest` of `app/schemas.py`. -/
structure TradeRequest where
  symbol : String
  side : TradeSide
  quantity : ℚ
deriving DecidableEq, Repr

/-- The error taxonomy raised by `execute_trade` in `app/routes.py`; the
insufficient-funds and insufficient-holdings errors carry the required and
available amounts reported in their detail strings. -/
inductive TradeError where
  | validation
  | invalidQuantity
  | insufficientFunds (required : ℚ) (available : ℚ)
  | insufficientHoldings (required : ℚ) (available : ℚ)
  | upstream (detail : String)
deriving DecidableEq, Repr

/-- The success payload of `execute_trade`: the appended `Trade` row (whose
fields the JSON response echoes) and the new balance. -/
structure TradeResult where
  trade : TradeRec
  new_balance : ℚ
deriving DecidableEq, Repr

/-- Result of one route invocation: the committed database state, the
number of provider network calls made, and the route's result. -/
structure TradeOutcome where
  db : Db
  providerCalls : ℕ
  result : Except TradeError TradeResult
deriving Repr

/-- Replace the first element satisfying `p` (SQLAlchemy `.first()` followed
by an in-place mutation of the returned row). -/
def updateFirst (p : α → Bool) (f : α → α) : List α → List α
  | [] => []
  | x :: xs => if p x then f x :: xs else x :: updateFirst p f xs

/-- Remove the first element satisfying `p` (SQLAlchemy `.first()` followed
by `db.delete` of the returned row). -/
def removeFirst (p : α → Bool) : List α → List α
  | [] => []
  | x :: xs => if p x then xs else x :: removeFirst p xs

/-- Python `quantity != int(quantity)` is false exactly when the rational is an
integer. -/
def isWholeNumber (q : ℚ) : Bool := q.den = 1

/-- The static per-market fee table of `execute_trade` (routes.py 186-192). -/
def feeFor (cfg : Settings) : MarketType → ℚ
  | MarketType.stock => cfg.STOCK_TRANSACTION_FEE
  | MarketType.crypto => cfg.CRYPTO_TRANSACTION_FEE
  | MarketType.forex => cfg.FOREX_TRANSACTION_FEE

/-- The holding upsert of the BUY branch (routes.py 207-228): weighted-average
recompute on the existing row, or a fresh row at the execution price. -/
def buyHoldings (symbol : String) (market : MarketType) (price quantity : ℚ)
    (holdings : List Holding) : List Holding :=
  match holdings.find? (fun h => h.symbol == symbol) with
  | some _ =>
      updateFirst (fun h => h.symbol == symbol)
        (fun h =>
          let total_quantity := h.quantity + quantity
          { h with
            average_price :=
              (h.quantity * h.average_price + quantity * price) / total_quantity
            quantity := total_quantity })
        holdings
  | none => holdings ++ [⟨symbol, market, quantity, price⟩]

/-- The holding decrement/delete of the SELL branch (routes.py 246-249):
`holding` is the row the branch already looked up. -/
def sellHoldings (symbol : String) (quantity : ℚ) (holding : Holding)
    (holdings : List Holding) : List Holding :=
  if holding.quantity - quantity = 0 then
    removeFirst (fun h => h.symbol == symbol) holdings
  else
    updateFirst (fun h => h.symbol == symbol)
      (fun h => { h with quantity := h.quantity - quantity })
      holdings

/-- The BUY branch of `execute_trade` (routes.py 197-228): check funds,
debit the balance, upsert the holding with the weighted-average recompute. -/
def buyBranch (symbol : String) (market : MarketType) (price fee quantity : ℚ)
    (db : Db) : Db × Except TradeError TradeResult :=
  let total_cost := quantity * price + fee
  if db.balance < total_cost then
    (db, Except.error (TradeError.insufficientFunds total_cost db.balance))
  else
    let trade : TradeRec := ⟨symbol, market, TradeSide.buy, quantity, price, fee, total_cost⟩
    ({ db with
        balance := db.balance - total_cost
        holdings := buyHoldings symbol market price quantity db.holdings
        trades := db.trades ++ [trade] },
     Except.ok ⟨trade, db.balance - total_cost⟩)

/-- The SELL branch of `execute_trade` (routes.py 230-249): check holdings,
credit the proceeds, decrement the holding, delete it at zero. -/
def sellBranch (symbol : String) (market : MarketType) (price fee quantity : ℚ)
    (db : Db) : Db × Except TradeError TradeResult :=
  let total_cost := quantity * price + fee
  match db.holdings.find? (fun h => h.symbol == symbol) with
  | none => (db, Except.error (TradeError.insufficientHoldings quantity 0))
  | some holding =>
    if holding.quantity < quantity then
      (db, Except.error (TradeError.insufficientHoldings quantity holding.quantity))
    else
      let newBalance := db.balance + (quantity * price - fee)
      let trade : TradeRec := ⟨symbol, market, TradeSide.sell, quantity, price, fee, total_cost⟩
      ({ db with
          balance := newBalance
          holdings := sellHoldings symbol quantity holding db.holdings
          trades := db.trades ++ [trade] },
       Except.ok ⟨trade, newBalance⟩)

/-- Route `execute_trade` in `app/routes.py` (the `quantity > 0` guard is the
pydantic `Field(gt=0)` validation of `TradeRequest` in `app/schemas.py`,
which rejects the request before the handler runs).  The handler fetches
the price straight from `MarketDataService.get_price` (routes.py 175),
validates the quantity and funds/holdings, applies the side's branch, and
commits the appended `Trade` together with the balance and holding
mutations; any exception raised before the single `db.commit()` leaves the
committed state untouched (rollback). -/
def execute_trade (cfg : Settings) (prov : Provider) (req : TradeRequest)
    (db : Db) : TradeOutcome :=
  if req.quantity ≤ 0 then
    ⟨db, 0, Except.error TradeError.validation⟩
  else
    let symbol := upper req.symbol
    match MarketDataService.get_price prov symbol with
    | Except.error e => ⟨db, 1, Except.error (TradeError.upstream e)⟩
    | Except.ok pd =>
      if pd.market = MarketType.stock ∧ ¬ isWholeNumber req.quantity then
        ⟨db, 1, Except.error TradeError.invalidQuantity⟩
      else
        let fee := feeFor cfg pd.market
        match req.side with
        | TradeSide.buy =>
            let r := buyBranch symbol pd.market pd.price fee req.quantity db
            ⟨r.1, 1, r.2⟩
        | TradeSide.sell =>
            let r := sellBranch symbol pd.market pd.price fee req.quantity db
            ⟨r.1, 1, r.2⟩

/-- Schema `PriceResponse` of `app/schemas.py`. -/
structure PriceResponse where
  symbol : String
  market : MarketType
  price : ℚ
  source : String
  updatedAt : ℤ
deriving DecidableEq, Repr

/-- Result of one `/price` invocation. -/
structure PriceOutcome where
  db : Db
  providerCalls : ℕ
  result : Except String PriceResponse
deriving Repr

/-- The cache-freshness predicate that the `get_price` filter at
routes.py 117-120 attempts to build (`cached_at >= now - 1 minute`, for
the requested symbol); evaluating the filter's second argument is what
raises the AttributeError, so the query itself never runs. -/
def cacheFresh (su : String) (now : ℤ) (e : CacheRow) : Bool :=
  e.symbol == su && decide (now - 60 ≤ e.cached_at)

/-- Route `get_price` in `app/routes.py`: the handler is broken on every
call.  Building the cache-freshness filter at routes.py 119 evaluates
`pytz.timedelta(minutes=1)`, and the `pytz` module exports no `timedelta`
attribute, so an AttributeError is raised inside the handler's `try` and
surfaced as HTTP 400 (routes.py 153-154) before any cache read, provider
call, or cache write; the cache-hit, provider-fetch and store code at
routes.py 122-151 is unreachable.  The route therefore returns the error
with the database untouched and zero provider calls, for every input. -/
def get_price (prov : Provider) (now : ℤ) (db : Db) (symbol : String) : PriceOutcome :=
  ⟨db, 0, Except.error "AttributeError: module pytz has no attribute timedelta"⟩

/-- Constant `RESOLUTION_MAP` in `app/routes.py`. -/
def RESOLUTION_MAP : List (String × String) :=
  [("1m", "1"), ("5m", "5"), ("15m", "15"), ("30m", "30"),
   ("1h", "60"), ("60m", "60"),
   ("2h", "120"), ("120m", "120"),
   ("4h", "240"), ("240m", "240"),
   ("1d", "D"), ("d", "D"),
   ("1w", "W"), ("w", "W"),
   ("1M", "M"), ("1mo", "M"), ("m", "M")]

/-- Function `normalize_resolution` in `app/routes.py` (`dict.get` with the alias
itself as default). -/
def normalize_resolution (resolution : String) : String :=
  match RESOLUTION_MAP.find? (fun p => p.1 == resolution) with
  | some p => p.2
  | none => resolution

/-- One OHLCV bar as parsed out of a provider time-series entry. -/
structure Bar where
  open_ : ℚ
  high : ℚ
  low : ℚ
  close : ℚ
  volume : ℚ
deriving DecidableEq, Repr

/-- The upstream historical provider: for a symbol and a canonical
resolution, the raw time-series dictionary — a list of
(unix timestamp, bar) items, unsorted, with pairwise distinct timestamps
(they are dictionary keys).  String timestamps are embedded directly as
their unix instants (the conversion in `market_data.py` is strictly
monotone on one response's uniform format). -/
def HistProvider : Type := String → String → Except String (List (ℤ × Bar))

/-- Schema `Candle` of `app/schemas.py`. -/
structure Candle where
  timestamp : ℤ
  open_ : ℚ
  high : ℚ
  low : ℚ
  close : ℚ
  volume : ℚ
deriving DecidableEq, Repr

/-- The stock branch of `get_historical_data` accepts exactly these
canonical resolutions (`market_data.py` 185-222). -/
def SUPPORTED_STOCK_RESOLUTIONS : List String :=
  ["1", "5", "15", "30", "60", "D", "W", "M"]

/-- Function `MarketDataService.get_historical_data` in `app/market_data.py`:
validate the resolution (stock branch), perform one provider call, then
sort the time-series items by key in reverse, keep `limit` of them and
reverse into chronological order (`sorted(..., reverse=True)[:limit]`
followed by `list(reversed(...))` — the identical construction closes all
three of `_get_stock_history`, `_get_crypto_history`,
`_get_forex_history`). -/
def get_historical_data (hp : HistProvider) (symbol resolution : String)
    (limit : ℕ) (market : MarketType) : Except String (List Candle) :=
  if market = MarketType.stock ∧ resolution ∉ SUPPORTED_STOCK_RESOLUTIONS then
    Except.error ("Unsupported resolution: " ++ resolution)
  else
    match hp symbol resolution with
    | Except.error e => Except.error e
    | Except.ok raw =>
      Except.ok ((((raw.mergeSort (fun a b => decide (b.1 ≤ a.1))).take limit).reverse).map
        (fun p => ⟨p.1, p.2.open_, p.2.high, p.2.low, p.2.close, p.2.volume⟩))

/-- Schema `HistoryResponse` of `app/schemas.py`. -/
structure HistoryResponse where
  symbol : String
  market : MarketType
  resolution : String
  count : ℕ
  history : List Candle
  source : String
  updatedAt : ℤ
deriving DecidableEq, Repr

/-- Result of one `/history` invocation. -/
structure HistoryOutcome where
  db : Db
  providerCalls : ℕ
  result : Except String HistoryResponse
deriving Repr

/-- The range filter of `get_history` (routes.py 392-398); note the Python
truthiness tests `if start_ts:` / `if end_ts:`, under which a zero
timestamp disables its bound. -/
def inRange (start_ts end_ts : Option ℤ) (r : HistRow) : Bool :=
  (match start_ts with
   | some s => if s ≠ 0 then decide (s ≤ r.timestamp) else true
   | none => true) &&
  (match end_ts with
   | some e => if e ≠ 0 then decide (r.timestamp < e) else true
   | none => true)

/-- The insert-if-absent persistence loop of `get_history`
(routes.py 434-460): each fetched candle is appended as a new
`HistoricalData` row unless a row with its (symbol, resolution, timestamp)
key is already present (the session autoflushes, so candles added earlier
in the same loop are visible to the existence check). -/
def insertCandles (symbol : String) (market : MarketType) (resolution : String)
    (rows : List HistRow) (cs : List Candle) : List HistRow :=
  cs.foldl
    (fun acc c =>
      if acc.any (fun r =>
          r.symbol == symbol && r.resolution == resolution && r.timestamp == c.timestamp) then
        acc
      else
        acc ++ [⟨symbol, market, resolution, c.timestamp, c.open_, c.high, c.low, c.close, c.volume⟩])
    rows

/-- Route `get_history` in `app/routes.py`: normalize the resolution, uppercase
the symbol, query the store (range-filtered, descending, capped at
`limit`); if the stored count meets `limit` return it reversed with
`source="cache"`, otherwise fetch from the provider, persist
insert-if-absent, and return the fresh batch with
`source="alpha_vantage"`. -/
def get_history (hp : HistProvider) (now : ℤ) (db : Db) (symbol resolution : String)
    (limit : ℕ) (start_ts end_ts : Option ℤ) : HistoryOutcome :=
  let canonical := normalize_resolution resolution
  let symbolU := upper symbol
  let market := MarketDataService.detect_market symbolU
  let filtered := db.historical.filter
    (fun r => r.symbol == symbolU && r.resolution == canonical && inRange start_ts end_ts r)
  let cached_data := (filtered.mergeSort (fun a b => decide (b.timestamp ≤ a.timestamp))).take limit
  if limit ≤ cached_data.length then
    let candles := cached_data.reverse.map
      (fun r => (⟨r.timestamp, r.open_, r.high, r.low, r.close, r.volume⟩ : Candle))
    ⟨db, 0, Except.ok ⟨symbolU, market, resolution, candles.length, candles, "cache", now⟩⟩
  else
    match get_historical_data hp symbolU canonical limit market with
    | Except.error e => ⟨db, 1, Except.error e⟩
    | Except.ok history_data =>
      ⟨{ db with historical := insertCandles symbolU market canonical db.historical history_data },
       1,
       Except.ok ⟨symbolU, market, resolution, history_data.length, history_data,
                  "alpha_vantage", now⟩⟩

/-! ## Helper lemmas -/

theorem char_toUpper_idem (c : Char) : c.toUpper.toUpper = c.toUpper := by
  unfold Char.toUpper
  by_cases h : c.toNat ≥ 97 ∧ c.toNat ≤ 122
  · rw [if_pos h]
    have hval : (c.toNat - 32).isValidChar := Or.inl (by omega)
    have ht : (Char.ofNat (c.toNat - 32)).toNat = c.toNat - 32 := by
      rw [Char.ofNat, dif_pos hval]; rfl
    rw [ht, if_neg (by omega)]
  · rw [if_neg h, if_neg h]

theorem upper_idem (s : String) : upper (upper s) = upper s := by
  simp only [upper, List.map_map]
  congr 1
  exact List.map_congr_left fun c _ => char_toUpper_idem c

theorem updateFirst_append_cons (p : α → Bool) (f : α → α) (as bs : List α) (x : α)
    (h1 : ∀ y ∈ as, p y = false) (hx : p x = true) :
    updateFirst p f (as ++ x :: bs) = as ++ f x :: bs := by
  induction as with
  | nil => simp [updateFirst, hx]
  | cons a as ih =>
      simp only [List.cons_append, updateFirst, h1 a (by simp), if_neg Bool.false_ne_true,
        List.cons.injEq, true_and]
      exact ih fun y hy => h1 y (by simp [hy])

theorem removeFirst_append_cons (p : α → Bool) (as bs : List α) (x : α)
    (h1 : ∀ y ∈ as, p y = false) (hx : p x = true) :
    removeFirst p (as ++ x :: bs) = as ++ bs := by
  induction as with
  | nil => simp [removeFirst, hx]
  | cons a as ih =>
      simp only [List.cons_append, removeFirst, h1 a (by simp), if_neg Bool.false_ne_true,
        List.cons.injEq, true_and]
      exact ih fun y hy => h1 y (by simp [hy])

theorem find?_append_cons_pos (p : α → Bool) (as bs : List α) (x : α)
    (h1 : ∀ y ∈ as, p y = false) (hx : p x = true) :
    (as ++ x :: bs).find? p = some x := by
  have hnone : as.find? p = none := List.find?_eq_none.mpr (by simpa using h1)
  simp [List.find?_append, hnone, List.find?_cons_of_pos _ hx]

/-- C10: the routes `get_price`, `execute_trade` and `get_history` normalize the symbol
to upper case before any lookup or mutation, so each behaves identically on
a symbol and on its upper-cased form; in particular a BUY of a lower-case
symbol and a SELL of its upper-case form act on the same Holding row. -/
theorem upper_case_insensitivity (s : String) (cfg : Settings) (prov : Provider)
    (hp : HistProvider) (now : ℤ) (db : Db) (side : TradeSide) (q : ℚ)
    (resolution : String) (limit : ℕ) (start_ts end_ts : Option ℤ) :
    get_price prov now db (upper s) = get_price prov now db s ∧
    execute_trade cfg prov ⟨upper s, side, q⟩ db = execute_trade cfg prov ⟨s, side, q⟩ db ∧
    get_history hp now db (upper s) resolution limit start_ts end_ts
      = get_history hp now db s resolution limit start_ts end_ts := by
  refine ⟨?_, ?_, ?_⟩
  · simp only [get_price, upper_idem]
  · simp only [execute_trade, upper_idem]
  · simp only [get_history, upper_idem]

theorem get_price_svc_ok (prov : Provider) (s : String) (pd : PriceData) :
    MarketDataService.get_price prov s = Except.ok pd ↔
    ∃ q, prov s = Except.ok q ∧
      pd = ⟨s, MarketDataService.detect_market s, q.price, "alpha_vantage", q.timestamp⟩ := by
  unfold MarketDataService.get_price
  cases prov s <;> simp [eq_comm]

theorem get_price_svc_error (prov : Provider) (s : String) (e : String) :
    MarketDataService.get_price prov s = Except.error e ↔ prov s = Except.error e := by
  unfold MarketDataService.get_price
  cases prov s <;> simp

theorem find?_buyHoldings (symbol : String) (market : MarketType) (price quantity : ℚ)
    (holdings : List Holding) :
    ∃ h', (buyHoldings symbol market price quantity holdings).find?
            (fun h => h.symbol == symbol) = some h' ∧
      h'.symbol = symbol ∧
      h'.quantity = (match holdings.find? (fun h => h.symbol == symbol) with
                     | some h0 => h0.quantity
                     | none => 0) + quantity ∧
      h'.average_price = (match holdings.find? (fun h => h.symbol == symbol) with
                     | some h0 =>
                        (h0.quantity * h0.average_price + quantity * price)
                          / (h0.quantity + quantity)
                     | none => price) := by
  unfold buyHoldings
  cases hf : holdings.find? (fun h => h.symbol == symbol) with
  | none =>
      refine ⟨⟨symbol, market, quantity, price⟩, ?_, rfl, by simp, by simp⟩
      have hnone : holdings.find? (fun h => h.symbol == symbol) = none := hf
      simp [List.find?_append, hnone]
  | some h0 =>
      obtain ⟨hp0, as, bs, heq, hall⟩ := List.find?_eq_some.mp hf
      have hall' : ∀ y ∈ as, (y.symbol == symbol) = false := by
        intro y hy
        simpa using hall y hy
      subst heq
      rw [updateFirst_append_cons _ _ _ _ _ hall' hp0]
      refine ⟨_, find?_append_cons_pos _ _ _ _ hall' (by simpa using hp0), ?_, by simp, by simp⟩
      simpa using hp0

theorem find?_sellHoldings_remove (symbol : String) (quantity : ℚ) (h0 : Holding)
    (holdings : List Holding)
    (huniq : (holdings.map Holding.symbol).Nodup)
    (hf : holdings.find? (fun h => h.symbol == symbol) = some h0)
    (hz : h0.quantity - quantity = 0) :
    (sellHoldings symbol quantity h0 holdings).find? (fun h => h.symbol == symbol) = none := by
  obtain ⟨hp0, as, bs, heq, hall⟩ := List.find?_eq_some.mp hf
  have hall' : ∀ y ∈ as, (y.symbol == symbol) = false := by
    intro y hy; simpa using hall y hy
  subst heq
  unfold sellHoldings
  rw [if_pos hz, removeFirst_append_cons _ _ _ _ hall' hp0]
  rw [List.find?_eq_none]
  intro x hx
  rcases List.mem_append.mp hx with hxa | hxb
  · simpa using hall' x hxa
  · have hpair : (as ++ h0 :: bs).Pairwise (fun a b => a.symbol ≠ b.symbol) :=
      List.pairwise_map.mp huniq
    have hne : h0.symbol ≠ x.symbol := by
      have h1 := (List.pairwise_append.mp hpair).2.1
      exact (List.pairwise_cons.mp h1).1 x hxb
    have h0s : h0.symbol = symbol := by simpa using hp0
    intro hxs
    exact hne (by rw [h0s]; exact (eq_of_beq hxs).symm)

theorem find?_sellHoldings_update (symbol : String) (quantity : ℚ) (h0 : Holding)
    (holdings : List Holding)
    (hf : holdings.find? (fun h => h.symbol == symbol) = some h0)
    (hnz : ¬ h0.quantity - quantity = 0) :
    (sellHoldings symbol quantity h0 holdings).find? (fun h => h.symbol == symbol)
      = some { h0 with quantity := h0.quantity - quantity } := by
  obtain ⟨hp0, as, bs, heq, hall⟩ := List.find?_eq_some.mp hf
  have hall' : ∀ y ∈ as, (y.symbol == symbol) = false := by
    intro y hy; simpa using hall y hy
  subst heq
  unfold sellHoldings
  rw [if_neg hnz, updateFirst_append_cons _ _ _ _ _ hall' hp0]
  exact find?_append_cons_pos _ _ _ _ hall' (by simpa using hp0)

theorem buyBranch_error_iff (s : String) (m : MarketType) (p fee q : ℚ) (db : Db)
    (e : TradeError) :
    (buyBranch s m p fee q db).2 = Except.error e ↔
      db.balance < q * p + fee ∧ e = TradeError.insufficientFunds (q * p + fee) db.balance := by
  by_cases hc : db.balance < q * p + fee <;> simp [buyBranch, hc, eq_comm]

theorem buyBranch_ok_iff (s : String) (m : MarketType) (p fee q : ℚ) (db : Db)
    (r : TradeResult) :
    (buyBranch s m p fee q db).2 = Except.ok r ↔
      ¬ db.balance < q * p + fee ∧
      r = ⟨⟨s, m, TradeSide.buy, q, p, fee, q * p + fee⟩, db.balance - (q * p + fee)⟩ := by
  by_cases hc : db.balance < q * p + fee <;> simp [buyBranch, hc, eq_comm]

theorem buyBranch_db_error (s : String) (m : MarketType) (p fee q : ℚ) (db : Db)
    (h : db.balance < q * p + fee) : (buyBranch s m p fee q db).1 = db := by
  simp [buyBranch, h]

theorem buyBranch_db_ok (s : String) (m : MarketType) (p fee q : ℚ) (db : Db)
    (h : ¬ db.balance < q * p + fee) :
    (buyBranch s m p fee q db).1 =
      { db with
          balance := db.balance - (q * p + fee)
          holdings := buyHoldings s m p q db.holdings
          trades := db.trades ++ [⟨s, m, TradeSide.buy, q, p, fee, q * p + fee⟩] } := by
  simp [buyBranch, h]

theorem sellBranch_error_iff (s : String) (m : MarketType) (p fee q : ℚ) (db : Db)
    (e : TradeError) :
    (sellBranch s m p fee q db).2 = Except.error e ↔
      (db.holdings.find? (fun h => h.symbol == s) = none ∧
        e = TradeError.insufficientHoldings q 0) ∨
      (∃ h0, db.holdings.find? (fun h => h.symbol == s) = some h0 ∧ h0.quantity < q ∧
        e = TradeError.insufficientHoldings q h0.quantity) := by
  cases hf : db.holdings.find? (fun h => h.symbol == s) with
  | none => simp [sellBranch, hf, eq_comm]
  | some h0 =>
      by_cases hc : h0.quantity < q <;> simp [sellBranch, hf, hc, eq_comm]

theorem sellBranch_ok_iff (s : String) (m : MarketType) (p fee q : ℚ) (db : Db)
    (r : TradeResult) :
    (sellBranch s m p fee q db).2 = Except.ok r ↔
      (∃ h0, db.holdings.find? (fun h => h.symbol == s) = some h0 ∧ ¬ h0.quantity < q) ∧
      r = ⟨⟨s, m, TradeSide.sell, q, p, fee, q * p + fee⟩, db.balance + (q * p - fee)⟩ := by
  cases hf : db.holdings.find? (fun h => h.symbol == s) with
  | none => simp [sellBranch, hf]
  | some h0 =>
      by_cases hc : h0.quantity < q
      · simp [sellBranch, hf, hc, eq_comm]
      · simp [sellBranch, hf, hc, eq_comm]
        exact fun _ => not_lt.mp hc

theorem sellBranch_db_error (s : String) (m : MarketType) (p fee q : ℚ) (db : Db)
    (e : TradeError) (h : (sellBranch s m p fee q db).2 = Except.error e) :
    (sellBranch s m p fee q db).1 = db := by
  cases hf : db.holdings.find? (fun h => h.symbol == s) with
  | none => simp [sellBranch, hf]
  | some h0 =>
      by_cases hc : h0.quantity < q
      · simp [sellBranch, hf, hc]
      · simp [sellBranch, hf, hc] at h

theorem sellBranch_db_ok (s : String) (m : MarketType) (p fee q : ℚ) (db : Db)
    (h0 : Holding) (hf : db.holdings.find? (fun h => h.symbol == s) = some h0)
    (hge : ¬ h0.quantity < q) :
    (sellBranch s m p fee q db).1 =
      { db with
          balance := db.balance + (q * p - fee)
          holdings := sellHoldings s q h0 db.holdings
          trades := db.trades ++ [⟨s, m, TradeSide.sell, q, p, fee, q * p + fee⟩] } := by
  simp [sellBranch, hf, hge]

/-- C2 (amended): for every successful trade, the appended Trade record
(and the echoed result) carries `totalCost = quantity*price + fee` for BUY
and SELL alike; only the balance credit of a SELL uses the proceeds
`quantity*price - fee`. -/
theorem trade_record_total_cost (cfg : Settings) (prov : Provider) (req : TradeRequest)
    (db : Db) (r : TradeResult)
    (hok : (execute_trade cfg prov req db).result = Except.ok r) :
    r.trade.total_cost = r.trade.quantity * r.trade.price + r.trade.transaction_fee ∧
    r.trade.side = req.side ∧ r.trade.quantity = req.quantity ∧
    (req.side = TradeSide.buy → r.new_balance = db.balance - r.trade.total_cost) ∧
    (req.side = TradeSide.sell →
      r.new_balance = db.balance + (r.trade.quantity * r.trade.price - r.trade.transaction_fee)) := by
  simp only [execute_trade] at hok
  by_cases hq0 : req.quantity ≤ 0
  · simp [hq0] at hok
  · rw [if_neg hq0] at hok
    cases hgp : MarketDataService.get_price prov (upper req.symbol) with
    | error e => simp [hgp] at hok
    | ok pd =>
      rw [hgp] at hok
      dsimp only at hok
      by_cases hmk : pd.market = MarketType.stock ∧ ¬ isWholeNumber req.quantity
      · simp [hmk] at hok
      · rw [if_neg hmk] at hok
        cases hside : req.side with
        | buy =>
            rw [hside] at hok
            dsimp only at hok
            obtain ⟨-, hr⟩ := (buyBranch_ok_iff _ _ _ _ _ _ _).mp hok
            subst hr
            simp
        | sell =>
            rw [hside] at hok
            dsimp only at hok
            obtain ⟨-, hr⟩ := (sellBranch_ok_iff _ _ _ _ _ _ _).mp hok
            subst hr
            simp

/-- Fee configuration with a nonzero stock fee (`STOCK_TRANSACTION_FEE` is
env-configurable in `config.py`). -/
def cfgC2 : Settings := { STOCK_TRANSACTION_FEE := 1 }

def provC2 : Provider := fun _ => Except.ok ⟨10, 0⟩

def reqC2 : TradeRequest := ⟨"AAPL", TradeSide.sell, 5⟩

def dbC2 : Db := ⟨0, [⟨"AAPL", MarketType.stock, 5, 100⟩], [], [], []⟩

/-- C2 is false as stated: with a stock fee of 1, a successful SELL of 5
shares at price 10 appends a Trade whose `total_cost` column is
5*10 + 1 = 51, not the proceeds 5*10 - 1 = 49. -/
theorem trade_record_total_cost_counterexample :
    (execute_trade cfgC2 provC2 reqC2 dbC2).result.map
        (fun r => (r.trade.side, r.trade.total_cost))
      = Except.ok (TradeSide.sell, 51) ∧
    (execute_trade cfgC2 provC2 reqC2 dbC2).result.map
        (fun r => r.trade.quantity * r.trade.price - r.trade.transaction_fee)
      = Except.ok 49 ∧
    (51 : ℚ) ≠ 49 := by
  have hu : upper "AAPL" = "AAPL" := by decide
  have hd : MarketDataService.detect_market "AAPL" = MarketType.stock := by decide
  refine ⟨?_, ?_, by norm_num⟩ <;>
    norm_num [execute_trade, MarketDataService.get_price, hu, hd, sellBranch, sellHoldings,
      removeFirst, updateFirst, feeFor, isWholeNumber, Except.map, cfgC2, provC2, reqC2, dbC2]

/-- Closed instance of `trade_record_total_cost` at the same concrete trade. -/
theorem trade_record_total_cost_witness :
    let r : TradeResult :=
      ⟨⟨"AAPL", MarketType.stock, TradeSide.sell, 5, 10, 1, 51⟩, 49⟩
    r.trade.total_cost = r.trade.quantity * r.trade.price + r.trade.transaction_fee ∧
    r.trade.side = reqC2.side ∧ r.trade.quantity = reqC2.quantity ∧
    (reqC2.side = TradeSide.buy → r.new_balance = dbC2.balance - r.trade.total_cost) ∧
    (reqC2.side = TradeSide.sell →
      r.new_balance = dbC2.balance + (r.trade.quantity * r.trade.price - r.trade.transaction_fee)) :=
  trade_record_total_cost cfgC2 provC2 reqC2 dbC2
    ⟨⟨"AAPL", MarketType.stock, TradeSide.sell, 5, 10, 1, 51⟩, 49⟩ (by
      have hu : upper "AAPL" = "AAPL" := by decide
      have hd : MarketDataService.detect_market "AAPL" = MarketType.stock := by decide
      norm_num [execute_trade, MarketDataService.get_price, hu, hd, sellBranch, sellHoldings,
        removeFirst, updateFirst, feeFor, isWholeNumber, cfgC2, provC2, reqC2, dbC2])

/-- C3 (amended): the handler `execute_trade` never consults the Price Cache: every call
that passes request validation performs exactly one Provider call, leaves
the `price_cache` table untouched, and executes at the Provider's price
regardless of any cached entry. -/
theorem execute_trade_price_from_provider (cfg : Settings) (prov : Provider)
    (req : TradeRequest) (db : Db) :
    (¬ req.quantity ≤ 0 → (execute_trade cfg prov req db).providerCalls = 1) ∧
    (execute_trade cfg prov req db).db.priceCache = db.priceCache ∧
    (∀ r, (execute_trade cfg prov req db).result = Except.ok r →
      ∃ q, prov (upper req.symbol) = Except.ok q ∧ r.trade.price = q.price) := by
  simp only [execute_trade]
  by_cases hq0 : req.quantity ≤ 0
  · simp [hq0]
  · rw [if_neg hq0]
    cases hgp : MarketDataService.get_price prov (upper req.symbol) with
    | error e => simp [hgp]
    | ok pd =>
      obtain ⟨qq, hq, hpd⟩ := (get_price_svc_ok _ _ _).mp hgp
      dsimp only
      by_cases hmk : pd.market = MarketType.stock ∧ ¬ isWholeNumber req.quantity
      · rw [if_pos hmk]; simp
      · rw [if_neg hmk]
        cases hside : req.side with
        | buy =>
            dsimp only
            refine ⟨fun _ => rfl, ?_, ?_⟩
            · by_cases hb : db.balance < req.quantity * pd.price + feeFor cfg pd.market
              · rw [buyBranch_db_error _ _ _ _ _ _ hb]
              · rw [buyBranch_db_ok _ _ _ _ _ _ hb]
            · intro r hr
              obtain ⟨-, hr2⟩ := (buyBranch_ok_iff _ _ _ _ _ _ _).mp hr
              refine ⟨qq, hq, ?_⟩
              subst hr2; subst hpd; rfl
        | sell =>
            dsimp only
            refine ⟨fun _ => rfl, ?_, ?_⟩
            · cases hr : (sellBranch (upper req.symbol) pd.market pd.price
                  (feeFor cfg pd.market) req.quantity db).2 with
              | error e => rw [sellBranch_db_error _ _ _ _ _ _ _ hr]
              | ok r =>
                  obtain ⟨⟨h0, hf, hge⟩, -⟩ := (sellBranch_ok_iff _ _ _ _ _ _ _).mp hr
                  rw [sellBranch_db_ok _ _ _ _ _ _ h0 hf hge]
            · intro r hr
              obtain ⟨-, hr2⟩ := (sellBranch_ok_iff _ _ _ _ _ _ _).mp hr
              refine ⟨qq, hq, ?_⟩
              subst hr2; subst hpd; rfl

def provC3 : Provider := fun _ => Except.ok ⟨200, 5⟩

/-- A state whose Price Cache holds a maximally fresh AAPL entry at price
150 (cached at the current instant 0). -/
def dbC3 : Db := ⟨1000000, [], [], [⟨"AAPL", MarketType.stock, 150, "alpha_vantage", 0, 0⟩], []⟩

def reqC3 : TradeRequest := ⟨"AAPL", TradeSide.buy, 1⟩

/-- C3 is false as stated: with a fresh (age-0) cached price of 150 for
AAPL, `execute_trade` still performs a Provider call and executes at the
Provider's price 200, not at the cached 150. -/
theorem execute_trade_ignores_cache_counterexample :
    (dbC3.priceCache.find? (cacheFresh (upper "AAPL") 0)).isSome = true ∧
    (execute_trade defaultSettings provC3 reqC3 dbC3).providerCalls = 1 ∧
    (execute_trade defaultSettings provC3 reqC3 dbC3).result.map (fun r => r.trade.price)
      = Except.ok 200 ∧
    ((200 : ℚ) = 150 → False) := by
  have hu : upper "AAPL" = "AAPL" := by decide
  have hd : MarketDataService.detect_market "AAPL" = MarketType.stock := by decide
  refine ⟨by decide, ?_, ?_, by norm_num⟩ <;>
    norm_num [execute_trade, MarketDataService.get_price, hu, hd, buyBranch, buyHoldings,
      updateFirst, feeFor, isWholeNumber, Except.map, defaultSettings, provC3, reqC3, dbC3]

/-- Closed instance of `execute_trade_price_from_provider` at the same
concrete state. -/
theorem execute_trade_price_from_provider_witness :
    (¬ reqC3.quantity ≤ 0 →
      (execute_trade defaultSettings provC3 reqC3 dbC3).providerCalls = 1) ∧
    (execute_trade defaultSettings provC3 reqC3 dbC3).db.priceCache = dbC3.priceCache ∧
    (∀ r, (execute_trade defaultSettings provC3 reqC3 dbC3).result = Except.ok r →
      ∃ q, provC3 (upper reqC3.symbol) = Except.ok q ∧ r.trade.price = q.price) :=
  execute_trade_price_from_provider defaultSettings provC3 reqC3 dbC3

/-- C4: past validation and a successful price fetch, a BUY fails with
InsufficientFunds exactly when `balance < totalCost` and a SELL fails with
InsufficientHoldings exactly when no holding exists or its quantity is
short; the error carries the required and available amounts and the
database is left unchanged. -/
theorem insufficient_funds_holdings_checks (cfg : Settings) (prov : Provider)
    (req : TradeRequest) (db : Db) (pd : PriceData)
    (hq0 : 0 < req.quantity)
    (hgp : MarketDataService.get_price prov (upper req.symbol) = Except.ok pd)
    (hint : pd.market = MarketType.stock → isWholeNumber req.quantity) :
    (req.side = TradeSide.buy →
      (((execute_trade cfg prov req db).result
          = Except.error (TradeError.insufficientFunds
              (req.quantity * pd.price + feeFor cfg pd.market) db.balance))
        ↔ db.balance < req.quantity * pd.price + feeFor cfg pd.market) ∧
      (db.balance < req.quantity * pd.price + feeFor cfg pd.market →
        (execute_trade cfg prov req db).db = db)) ∧
    (req.side = TradeSide.sell →
      (((execute_trade cfg prov req db).result
          = Except.error (TradeError.insufficientHoldings req.quantity
              (match db.holdings.find? (fun h => h.symbol == upper req.symbol) with
               | some h0 => h0.quantity
               | none => 0)))
        ↔ (db.holdings.find? (fun h => h.symbol == upper req.symbol) = none ∨
           ∃ h0, db.holdings.find? (fun h => h.symbol == upper req.symbol) = some h0 ∧
             h0.quantity < req.quantity)) ∧
      ((db.holdings.find? (fun h => h.symbol == upper req.symbol) = none ∨
        ∃ h0, db.holdings.find? (fun h => h.symbol == upper req.symbol) = some h0 ∧
          h0.quantity < req.quantity) →
        (execute_trade cfg prov req db).db = db)) := by
  have hmk : ¬ (pd.market = MarketType.stock ∧ ¬ isWholeNumber req.quantity) := by
    rintro ⟨h1, h2⟩; exact h2 (hint h1)
  simp only [execute_trade]
  rw [if_neg (not_le.mpr hq0), hgp]
  dsimp only
  rw [if_neg hmk]
  constructor
  · intro hside
    rw [hside]
    dsimp only
    constructor
    · constructor
      · intro herr
        exact ((buyBranch_error_iff _ _ _ _ _ _ _).mp herr).1
      · intro hlt
        exact (buyBranch_error_iff _ _ _ _ _ _ _).mpr ⟨hlt, rfl⟩
    · intro hlt
      exact buyBranch_db_error _ _ _ _ _ _ hlt
  · intro hside
    rw [hside]
    dsimp only
    cases hf : db.holdings.find? (fun h => h.symbol == upper req.symbol) with
    | none =>
        dsimp only
        constructor
        · constructor
          · intro _; exact Or.inl rfl
          · intro _
            exact (sellBranch_error_iff _ _ _ _ _ _ _).mpr (Or.inl ⟨hf, rfl⟩)
        · intro _
          exact sellBranch_db_error _ _ _ _ _ _ _
            ((sellBranch_error_iff _ _ _ _ _ _ _).mpr (Or.inl ⟨hf, rfl⟩))
    | some h0 =>
        dsimp only
        constructor
        · constructor
          · intro herr
            rcases (sellBranch_error_iff _ _ _ _ _ _ _).mp herr with ⟨hnone, -⟩ | ⟨h1, hf1, hlt, he⟩
            · rw [hf] at hnone; cases hnone
            · rw [hf] at hf1
              injection hf1 with hh
              subst hh
              exact Or.inr ⟨h0, rfl, hlt⟩
          · rintro (hnone | ⟨h1, hf1, hlt⟩)
            · cases hnone
            · injection hf1 with hh
              subst hh
              exact (sellBranch_error_iff _ _ _ _ _ _ _).mpr (Or.inr ⟨h0, hf, hlt, rfl⟩)
        · rintro (hnone | ⟨h1, hf1, hlt⟩)
          · cases hnone
          · injection hf1 with hh
            subst hh
            exact sellBranch_db_error _ _ _ _ _ _ _
              ((sellBranch_error_iff _ _ _ _ _ _ _).mpr (Or.inr ⟨h0, hf, hlt, rfl⟩))

def provC4 : Provider := fun _ => Except.ok ⟨200, 0⟩

def reqC4 : TradeRequest := ⟨"AAPL", TradeSide.buy, 1⟩

def dbC4 : Db := ⟨0, [], [], [], []⟩

def pdC4 : PriceData := ⟨"AAPL", MarketType.stock, 200, "alpha_vantage", 0⟩

/-- Closed instance of `insufficient_funds_holdings_checks`: a BUY of one
share at 200 against a zero balance. -/
theorem insufficient_funds_holdings_checks_witness :
    (reqC4.side = TradeSide.buy →
      (((execute_trade defaultSettings provC4 reqC4 dbC4).result
          = Except.error (TradeError.insufficientFunds
              (reqC4.quantity * pdC4.price + feeFor defaultSettings pdC4.market) dbC4.balance))
        ↔ dbC4.balance < reqC4.quantity * pdC4.price + feeFor defaultSettings pdC4.market) ∧
      (dbC4.balance < reqC4.quantity * pdC4.price + feeFor defaultSettings pdC4.market →
        (execute_trade defaultSettings provC4 reqC4 dbC4).db = dbC4)) ∧
    (reqC4.side = TradeSide.sell →
      (((execute_trade defaultSettings provC4 reqC4 dbC4).result
          = Except.error (TradeError.insufficientHoldings reqC4.quantity
              (match dbC4.holdings.find? (fun h => h.symbol == upper reqC4.symbol) with
               | some h0 => h0.quantity
               | none => 0)))
        ↔ (dbC4.holdings.find? (fun h => h.symbol == upper reqC4.symbol) = none ∨
           ∃ h0, dbC4.holdings.find? (fun h => h.symbol == upper reqC4.symbol) = some h0 ∧
             h0.quantity < reqC4.quantity)) ∧
      ((dbC4.holdings.find? (fun h => h.symbol == upper reqC4.symbol) = none ∨
        ∃ h0, dbC4.holdings.find? (fun h => h.symbol == upper reqC4.symbol) = some h0 ∧
          h0.quantity < reqC4.quantity) →
        (execute_trade defaultSettings provC4 reqC4 dbC4).db = dbC4)) :=
  insufficient_funds_holdings_checks defaultSettings provC4 reqC4 dbC4 pdC4
    (by decide) (by rfl) (by decide)

theorem execute_trade_buy_holdings (cfg : Settings) (prov : Provider) (req : TradeRequest)
    (db : Db) (pd : PriceData) (r : TradeResult)
    (hgp : MarketDataService.get_price prov (upper req.symbol) = Except.ok pd)
    (hside : req.side = TradeSide.buy)
    (hok : (execute_trade cfg prov req db).result = Except.ok r) :
    (execute_trade cfg prov req db).db.holdings
      = buyHoldings (upper req.symbol) pd.market pd.price req.quantity db.holdings := by
  simp only [execute_trade] at hok ⊢
  by_cases hq0 : req.quantity ≤ 0
  · simp [hq0] at hok
  · rw [if_neg hq0] at hok ⊢
    rw [hgp] at hok ⊢
    dsimp only at hok ⊢
    by_cases hmk : pd.market = MarketType.stock ∧ ¬ isWholeNumber req.quantity
    · simp [hmk] at hok
    · rw [if_neg hmk] at hok ⊢
      rw [hside] at hok ⊢
      dsimp only at hok ⊢
      obtain ⟨hb, -⟩ := (buyBranch_ok_iff _ _ _ _ _ _ _).mp hok
      rw [buyBranch_db_ok _ _ _ _ _ _ hb]

theorem first_buy_creates_holding (cfg : Settings) (prov : Provider) (req : TradeRequest)
    (db : Db) (pd : PriceData) (r : TradeResult)
    (hgp : MarketDataService.get_price prov (upper req.symbol) = Except.ok pd)
    (hside : req.side = TradeSide.buy)
    (hfresh : db.holdings.find? (fun h => h.symbol == upper req.symbol) = none)
    (hok : (execute_trade cfg prov req db).result = Except.ok r) :
    (execute_trade cfg prov req db).db.holdings.find? (fun h => h.symbol == upper req.symbol)
      = some ⟨upper req.symbol, pd.market, req.quantity, pd.price⟩ := by
  rw [execute_trade_buy_holdings cfg prov req db pd r hgp hside hok]
  simp [buyHoldings, hfresh, List.find?_append]

theorem subsequent_buy_weighted_average (cfg : Settings) (prov : Provider)
    (req : TradeRequest) (db : Db) (pd : PriceData) (h0 : Holding) (r : TradeResult)
    (hgp : MarketDataService.get_price prov (upper req.symbol) = Except.ok pd)
    (hside : req.side = TradeSide.buy)
    (hf : db.holdings.find? (fun h => h.symbol == upper req.symbol) = some h0)
    (hok : (execute_trade cfg prov req db).result = Except.ok r) :
    ∃ h', (execute_trade cfg prov req db).db.holdings.find?
            (fun h => h.symbol == upper req.symbol) = some h' ∧
      h'.quantity = h0.quantity + req.quantity ∧
      h'.average_price = (h0.quantity * h0.average_price + req.quantity * pd.price)
        / (h0.quantity + req.quantity) := by
  rw [execute_trade_buy_holdings cfg prov req db pd r hgp hside hok]
  obtain ⟨h', hfind, -, hq, ha⟩ :=
    find?_buyHoldings (upper req.symbol) pd.market pd.price req.quantity db.holdings
  rw [hf] at hq ha
  exact ⟨h', hfind, hq, ha⟩

/-- C5: a first BUY creates the Holding at the execution price; every
subsequent BUY updates it by `newQty = oldQty + q` and
`newAvg = (oldQty*oldAvg + q*p) / newQty`; consequently two BUYs on a
fresh symbol leave `averageCost = (q1*p1 + q2*p2) / (q1 + q2)`. -/
theorem weighted_average_invariant :
    (∀ (cfg : Settings) (prov : Provider) (req : TradeRequest) (db : Db) (pd : PriceData)
       (r : TradeResult),
       MarketDataService.get_price prov (upper req.symbol) = Except.ok pd →
       req.side = TradeSide.buy →
       db.holdings.find? (fun h => h.symbol == upper req.symbol) = none →
       (execute_trade cfg prov req db).result = Except.ok r →
       (execute_trade cfg prov req db).db.holdings.find? (fun h => h.symbol == upper req.symbol)
         = some ⟨upper req.symbol, pd.market, req.quantity, pd.price⟩) ∧
    (∀ (cfg : Settings) (prov : Provider) (req : TradeRequest) (db : Db) (pd : PriceData)
       (h0 : Holding) (r : TradeResult),
       MarketDataService.get_price prov (upper req.symbol) = Except.ok pd →
       req.side = TradeSide.buy →
       db.holdings.find? (fun h => h.symbol == upper req.symbol) = some h0 →
       (execute_trade cfg prov req db).result = Except.ok r →
       ∃ h', (execute_trade cfg prov req db).db.holdings.find?
               (fun h => h.symbol == upper req.symbol) = some h' ∧
         h'.quantity = h0.quantity + req.quantity ∧
         h'.average_price = (h0.quantity * h0.average_price + req.quantity * pd.price)
           / (h0.quantity + req.quantity)) ∧
    (∀ (cfg : Settings) (prov1 prov2 : Provider) (s : String) (q1 q2 p1 p2 : ℚ) (t1 t2 : ℤ)
       (db : Db) (r1 r2 : TradeResult),
       prov1 (upper s) = Except.ok ⟨p1, t1⟩ →
       prov2 (upper s) = Except.ok ⟨p2, t2⟩ →
       db.holdings.find? (fun h => h.symbol == upper s) = none →
       (execute_trade cfg prov1 ⟨s, TradeSide.buy, q1⟩ db).result = Except.ok r1 →
       (execute_trade cfg prov2 ⟨s, TradeSide.buy, q2⟩
           (execute_trade cfg prov1 ⟨s, TradeSide.buy, q1⟩ db).db).result = Except.ok r2 →
       ∃ h', (execute_trade cfg prov2 ⟨s, TradeSide.buy, q2⟩
                (execute_trade cfg prov1 ⟨s, TradeSide.buy, q1⟩ db).db).db.holdings.find?
               (fun h => h.symbol == upper s) = some h' ∧
         h'.quantity = q1 + q2 ∧
         h'.average_price = (q1 * p1 + q2 * p2) / (q1 + q2)) := by
  refine ⟨first_buy_creates_holding, subsequent_buy_weighted_average, ?_⟩
  intro cfg prov1 prov2 s q1 q2 p1 p2 t1 t2 db r1 r2 hp1 hp2 hfresh hok1 hok2
  have hgp1 : MarketDataService.get_price prov1 (upper s)
      = Except.ok ⟨upper s, MarketDataService.detect_market (upper s), p1, "alpha_vantage", t1⟩ := by
    unfold MarketDataService.get_price
    rw [hp1]
  have hgp2 : MarketDataService.get_price prov2 (upper s)
      = Except.ok ⟨upper s, MarketDataService.detect_market (upper s), p2, "alpha_vantage", t2⟩ := by
    unfold MarketDataService.get_price
    rw [hp2]
  have h1 := first_buy_creates_holding cfg prov1 ⟨s, TradeSide.buy, q1⟩ db _ r1 hgp1 rfl hfresh hok1
  obtain ⟨h', hfind, hq, ha⟩ :=
    subsequent_buy_weighted_average cfg prov2 ⟨s, TradeSide.buy, q2⟩
      (execute_trade cfg prov1 ⟨s, TradeSide.buy, q1⟩ db).db _
      ⟨upper s, MarketDataService.detect_market (upper s), q1, p1⟩ r2 hgp2 rfl h1 hok2
  exact ⟨h', hfind, hq, ha⟩

def provC5a : Provider := fun _ => Except.ok ⟨150, 0⟩

def provC5b : Provider := fun _ => Except.ok ⟨160, 0⟩

def dbC5 : Db := ⟨100000, [], [], [], []⟩

def r1C5 : TradeResult := ⟨⟨"AAPL", MarketType.stock, TradeSide.buy, 10, 150, 0, 1500⟩, 98500⟩

def r2C5 : TradeResult := ⟨⟨"AAPL", MarketType.stock, TradeSide.buy, 5, 160, 0, 800⟩, 97700⟩

/-- Closed instance of `weighted_average_invariant`: BUY 10 AAPL at 150
then BUY 5 AAPL at 160 on a fresh account. -/
theorem weighted_average_invariant_witness :
    ∃ h', (execute_trade defaultSettings provC5b ⟨"AAPL", TradeSide.buy, 5⟩
              (execute_trade defaultSettings provC5a ⟨"AAPL", TradeSide.buy, 10⟩ dbC5).db).db.holdings.find?
            (fun h => h.symbol == upper "AAPL") = some h' ∧
      h'.quantity = 10 + 5 ∧
      h'.average_price = (10 * 150 + 5 * 160) / (10 + 5) := by
  have hu : upper "AAPL" = "AAPL" := by decide
  have hd : MarketDataService.detect_market "AAPL" = MarketType.stock := by decide
  have hok1 : (execute_trade defaultSettings provC5a ⟨"AAPL", TradeSide.buy, 10⟩ dbC5).result
      = Except.ok r1C5 := by
    norm_num [execute_trade, MarketDataService.get_price, hu, hd, buyBranch, buyHoldings,
      updateFirst, feeFor, isWholeNumber, defaultSettings, provC5a, dbC5, r1C5]
  have hok2 : (execute_trade defaultSettings provC5b ⟨"AAPL", TradeSide.buy, 5⟩
        (execute_trade defaultSettings provC5a ⟨"AAPL", TradeSide.buy, 10⟩ dbC5).db).result
      = Except.ok r2C5 := by
    norm_num [execute_trade, MarketDataService.get_price, hu, hd, buyBranch, buyHoldings,
      updateFirst, feeFor, isWholeNumber, defaultSettings, provC5a, provC5b, dbC5, r2C5]
  exact weighted_average_invariant.2.2 defaultSettings provC5a provC5b "AAPL" 10 5 150 160 0 0
    dbC5 r1C5 r2C5 rfl rfl rfl hok1 hok2

theorem feeFor_defaultSettings (m : MarketType) : feeFor defaultSettings m = 0 := by
  cases m <;> rfl

/-- C6: starting from a non-negative balance, with the configured
(`config.py` default) per-market fees and non-negative provider prices,
every `execute_trade` call — failed or successful, BUY or SELL — leaves
the cash balance non-negative. -/
theorem balance_nonneg (prov : Provider) (req : TradeRequest) (db : Db)
    (h0 : 0 ≤ db.balance)
    (hp : ∀ q, prov (upper req.symbol) = Except.ok q → 0 ≤ q.price) :
    0 ≤ (execute_trade defaultSettings prov req db).db.balance := by
  simp only [execute_trade]
  by_cases hq0 : req.quantity ≤ 0
  · simpa [hq0] using h0
  · rw [if_neg hq0]
    cases hgp : MarketDataService.get_price prov (upper req.symbol) with
    | error e => simpa using h0
    | ok pd =>
      obtain ⟨qq, hq, hpd⟩ := (get_price_svc_ok _ _ _).mp hgp
      have hprice : 0 ≤ pd.price := by rw [hpd]; exact hp qq hq
      dsimp only
      by_cases hmk : pd.market = MarketType.stock ∧ ¬ isWholeNumber req.quantity
      · rw [if_pos hmk]; exact h0
      · rw [if_neg hmk]
        cases hside : req.side with
        | buy =>
            dsimp only
            by_cases hb : db.balance < req.quantity * pd.price + feeFor defaultSettings pd.market
            · rw [buyBranch_db_error _ _ _ _ _ _ hb]; exact h0
            · rw [buyBranch_db_ok _ _ _ _ _ _ hb]
              exact sub_nonneg.mpr (not_lt.mp hb)
        | sell =>
            dsimp only
            cases hr : (sellBranch (upper req.symbol) pd.market pd.price
                (feeFor defaultSettings pd.market) req.quantity db).2 with
            | error e =>
                rw [sellBranch_db_error _ _ _ _ _ _ _ hr]; exact h0
            | ok r =>
                obtain ⟨⟨hh0, hf, hge⟩, -⟩ := (sellBranch_ok_iff _ _ _ _ _ _ _).mp hr
                rw [sellBranch_db_ok _ _ _ _ _ _ hh0 hf hge]
                have hqpos : 0 < req.quantity := not_le.mp hq0
                have : 0 ≤ req.quantity * pd.price := mul_nonneg hqpos.le hprice
                rw [feeFor_defaultSettings]
                simpa using add_nonneg h0 this

def provC6 : Provider := fun _ => Except.ok ⟨150, 0⟩

def dbC6 : Db := ⟨100, [⟨"AAPL", MarketType.stock, 3, 150⟩], [], [], []⟩

/-- Closed instance of `balance_nonneg`: a SELL of 2 AAPL at 150 from a
balance of 100. -/
theorem balance_nonneg_witness :
    0 ≤ (execute_trade defaultSettings provC6 ⟨"AAPL", TradeSide.sell, 2⟩ dbC6).db.balance :=
  balance_nonneg provC6 ⟨"AAPL", TradeSide.sell, 2⟩ dbC6 (by norm_num [dbC6])
    (fun q hq => by injection hq with h; rw [← h]; norm_num)

/-- C1: `execute_trade` is all-or-nothing.  Every failing call (validation,
invalid quantity, insufficient funds/holdings, provider failure) leaves the
whole database state exactly as it was; every successful call applies the
balance update, the holding upsert/delete, and the trade-log append
together in its single commit (and touches nothing else).  The uniqueness
hypothesis is the `idx_user_symbol_unique` index on holdings. -/
theorem execute_trade_atomic (cfg : Settings) (prov : Provider) (req : TradeRequest)
    (db : Db) (huniq : (db.holdings.map Holding.symbol).Nodup) :
    (∀ e, (execute_trade cfg prov req db).result = Except.error e →
       (execute_trade cfg prov req db).db = db) ∧
    (∀ r, (execute_trade cfg prov req db).result = Except.ok r →
       (execute_trade cfg prov req db).db.trades = db.trades ++ [r.trade] ∧
       (execute_trade cfg prov req db).db.balance = r.new_balance ∧
       (execute_trade cfg prov req db).db.priceCache = db.priceCache ∧
       (execute_trade cfg prov req db).db.historical = db.historical ∧
       (req.side = TradeSide.buy →
         ∃ h', (execute_trade cfg prov req db).db.holdings.find?
                 (fun h => h.symbol == upper req.symbol) = some h' ∧
           h'.quantity = (match db.holdings.find? (fun h => h.symbol == upper req.symbol) with
                          | some h0 => h0.quantity
                          | none => 0) + req.quantity) ∧
       (req.side = TradeSide.sell →
         ∃ h0, db.holdings.find? (fun h => h.symbol == upper req.symbol) = some h0 ∧
           (h0.quantity - req.quantity = 0 →
             (execute_trade cfg prov req db).db.holdings.find?
               (fun h => h.symbol == upper req.symbol) = none) ∧
           (¬ h0.quantity - req.quantity = 0 →
             ∃ h', (execute_trade cfg prov req db).db.holdings.find?
                     (fun h => h.symbol == upper req.symbol) = some h' ∧
               h'.quantity = h0.quantity - req.quantity))) := by
  simp only [execute_trade]
  by_cases hq0 : req.quantity ≤ 0
  · simp [hq0]
  · rw [if_neg hq0]
    cases hgp : MarketDataService.get_price prov (upper req.symbol) with
    | error e => simp
    | ok pd =>
      dsimp only
      by_cases hmk : pd.market = MarketType.stock ∧ ¬ isWholeNumber req.quantity
      · rw [if_pos hmk]; simp
      · rw [if_neg hmk]
        cases hside : req.side with
        | buy =>
            dsimp only
            constructor
            · intro e herr
              exact buyBranch_db_error _ _ _ _ _ _
                ((buyBranch_error_iff _ _ _ _ _ _ _).mp herr).1
            · intro r hok
              obtain ⟨hb, hr⟩ := (buyBranch_ok_iff _ _ _ _ _ _ _).mp hok
              rw [buyBranch_db_ok _ _ _ _ _ _ hb]
              subst hr
              refine ⟨rfl, rfl, rfl, rfl, ?_, ?_⟩
              · intro _
                obtain ⟨h', hfind, -, hqty, -⟩ :=
                  find?_buyHoldings (upper req.symbol) pd.market pd.price req.quantity db.holdings
                exact ⟨h', hfind, hqty⟩
              · intro hcontra
                exact absurd hcontra (by decide)
        | sell =>
            dsimp only
            constructor
            · intro e herr
              exact sellBranch_db_error _ _ _ _ _ _ _ herr
            · intro r hok
              obtain ⟨⟨h0, hf, hge⟩, hr⟩ := (sellBranch_ok_iff _ _ _ _ _ _ _).mp hok
              rw [sellBranch_db_ok _ _ _ _ _ _ h0 hf hge]
              subst hr
              refine ⟨rfl, rfl, rfl, rfl, ?_, ?_⟩
              · intro hcontra
                exact absurd hcontra (by decide)
              · intro _
                refine ⟨h0, hf, ?_, ?_⟩
                · intro hz
                  exact find?_sellHoldings_remove _ _ _ _ huniq hf hz
                · intro hnz
                  exact ⟨_, find?_sellHoldings_update _ _ _ _ hf hnz, rfl⟩

def provC1 : Provider := fun _ => Except.ok ⟨200, 0⟩

def dbC1 : Db := ⟨1000, [], [], [], []⟩

def reqC1 : TradeRequest := ⟨"AAPL", TradeSide.buy, 1⟩

/-- Closed instance of `execute_trade_atomic`: BUY 1 AAPL at 200 against a
balance of 1000 and no prior holdings. -/
theorem execute_trade_atomic_witness :
    (∀ e, (execute_trade defaultSettings provC1 reqC1 dbC1).result = Except.error e →
       (execute_trade defaultSettings provC1 reqC1 dbC1).db = dbC1) ∧
    (∀ r, (execute_trade defaultSettings provC1 reqC1 dbC1).result = Except.ok r →
       (execute_trade defaultSettings provC1 reqC1 dbC1).db.trades = dbC1.trades ++ [r.trade] ∧
       (execute_trade defaultSettings provC1 reqC1 dbC1).db.balance = r.new_balance ∧
       (execute_trade defaultSettings provC1 reqC1 dbC1).db.priceCache = dbC1.priceCache ∧
       (execute_trade defaultSettings provC1 reqC1 dbC1).db.historical = dbC1.historical ∧
       (reqC1.side = TradeSide.buy →
         ∃ h', (execute_trade defaultSettings provC1 reqC1 dbC1).db.holdings.find?
                 (fun h => h.symbol == upper reqC1.symbol) = some h' ∧
           h'.quantity = (match dbC1.holdings.find? (fun h => h.symbol == upper reqC1.symbol) with
                          | some h0 => h0.quantity
                          | none => 0) + reqC1.quantity) ∧
       (reqC1.side = TradeSide.sell →
         ∃ h0, dbC1.holdings.find? (fun h => h.symbol == upper reqC1.symbol) = some h0 ∧
           (h0.quantity - reqC1.quantity = 0 →
             (execute_trade defaultSettings provC1 reqC1 dbC1).db.holdings.find?
               (fun h => h.symbol == upper reqC1.symbol) = none) ∧
           (¬ h0.quantity - reqC1.quantity = 0 →
             ∃ h', (execute_trade defaultSettings provC1 reqC1 dbC1).db.holdings.find?
                     (fun h => h.symbol == upper reqC1.symbol) = some h' ∧
               h'.quantity = h0.quantity - reqC1.quantity))) :=
  execute_trade_atomic defaultSettings provC1 reqC1 dbC1 (by decide)

/-- C7 (code bug): the TTL-cache behavior the claim describes does not
exist in the code — every GetPrice call fails with the `pytz.timedelta`
AttributeError before reading the cache or consulting the Provider, so no
call ever returns a price and no Provider call is ever issued, even with a
fresh cached entry present. -/
theorem get_price_always_errors (prov : Provider) (now : ℤ) (db : Db) (s : String) :
    (get_price prov now db s).result
      = Except.error "AttributeError: module pytz has no attribute timedelta" ∧
    (get_price prov now db s).providerCalls = 0 :=
  ⟨rfl, rfl⟩

/-- C8 (code bug): GetPrice never stores (let alone replaces) any
CachedPrice row — the handler fails before its store step on every call,
leaving the whole database, in particular the `price_cache` table,
unchanged. -/
theorem get_price_never_stores (prov : Provider) (now : ℤ) (db : Db) (s : String) :
    (get_price prov now db s).db = db ∧
    (get_price prov now db s).db.priceCache = db.priceCache :=
  ⟨rfl, rfl⟩

theorem sortDescTakeRev_pairwise {α : Type} (key : α → ℤ) (l : List α) (limit : ℕ)
    (hnd : l.Pairwise (fun a b => key a ≠ key b)) :
    (((l.mergeSort (fun a b => decide (key b ≤ key a))).take limit).reverse).Pairwise
      (fun a b => key a < key b) := by
  have htrans : ∀ (a b c : α), (decide (key b ≤ key a)) → (decide (key c ≤ key b)) →
      (decide (key c ≤ key a)) = true := by
    intro a b c hab hbc
    simp only [decide_eq_true_eq] at *
    omega
  have htot : ∀ (a b : α), ((decide (key b ≤ key a)) || (decide (key a ≤ key b))) = true := by
    intro a b
    simp only [Bool.or_eq_true, decide_eq_true_eq]
    omega
  have hsorted := List.sorted_mergeSort htrans htot l
  have hperm := List.mergeSort_perm l (fun a b => decide (key b ≤ key a))
  have hnd2 : (l.mergeSort (fun a b => decide (key b ≤ key a))).Pairwise
      (fun a b => key a ≠ key b) :=
    (hperm.pairwise_iff (fun h => Ne.symm h)).mpr hnd
  have hstrict : (l.mergeSort (fun a b => decide (key b ≤ key a))).Pairwise
      (fun a b => key b < key a) := by
    refine List.Pairwise.imp₂ (fun a b h1 h2 => ?_) hsorted hnd2
    have h1' : key b ≤ key a := of_decide_eq_true h1
    omega
  have htake : ((l.mergeSort (fun a b => decide (key b ≤ key a))).take limit).Pairwise
      (fun a b => key b < key a) :=
    List.Pairwise.sublist (List.take_sublist _ _) hstrict
  exact List.pairwise_reverse.mpr htake

theorem get_historical_data_ok (hp : HistProvider) (symbol resolution : String)
    (limit : ℕ) (market : MarketType) (cs : List Candle)
    (h : get_historical_data hp symbol resolution limit market = Except.ok cs) :
    ∃ raw, hp symbol resolution = Except.ok raw ∧
      cs = (((raw.mergeSort (fun a b => decide (b.1 ≤ a.1))).take limit).reverse).map
        (fun p => ⟨p.1, p.2.open_, p.2.high, p.2.low, p.2.close, p.2.volume⟩) := by
  unfold get_historical_data at h
  by_cases hres : market = MarketType.stock ∧ resolution ∉ SUPPORTED_STOCK_RESOLUTIONS
  · rw [if_pos hres] at h; cases h
  · rw [if_neg hres] at h
    cases hraw : hp symbol resolution with
    | error e => rw [hraw] at h; cases h
    | ok raw =>
        rw [hraw] at h
        injection h with hcs
        exact ⟨raw, rfl, hcs.symm⟩

theorem filtered_hist_pairwise (db : Db) (symbolU canonical : String)
    (start_ts end_ts : Option ℤ)
    (hdb : db.historical.Pairwise (fun a b =>
      a.symbol = b.symbol → a.resolution = b.resolution → a.timestamp ≠ b.timestamp)) :
    (db.historical.filter (fun r => r.symbol == symbolU &&
        r.resolution == canonical && inRange start_ts end_ts r)).Pairwise
      (fun a b => a.timestamp ≠ b.timestamp) := by
  have hsub : (db.historical.filter (fun r => r.symbol == symbolU &&
      r.resolution == canonical && inRange start_ts end_ts r)).Pairwise
      (fun a b => a.symbol = b.symbol → a.resolution = b.resolution →
        a.timestamp ≠ b.timestamp) :=
    List.Pairwise.sublist (List.filter_sublist db.historical) hdb
  refine List.Pairwise.imp_of_mem (fun {a b} ha hb hR => ?_) hsub
  have ha' := (List.mem_filter.mp ha).2
  have hb' := (List.mem_filter.mp hb).2
  simp only [Bool.and_eq_true, beq_iff_eq] at ha' hb'
  exact hR (ha'.1.1.trans hb'.1.1.symm) (ha'.1.2.trans hb'.1.2.symm)

/-- C9 (amended): every successful GetHistory response lists its candles in
strictly increasing timestamp order; its source is "cache" when it is
served from the store without a provider call (stored count meets the
limit) and "alpha_vantage" when it was freshly fetched from the provider
(one provider call).  The two nodup hypotheses are the unique index on
`historical_data` and the uniqueness of the provider's time-series keys. -/
theorem history_ordered_and_tagged (hp : HistProvider) (now : ℤ) (db : Db)
    (symbol resolution : String) (limit : ℕ) (start_ts end_ts : Option ℤ)
    (hdb : db.historical.Pairwise (fun a b =>
      a.symbol = b.symbol → a.resolution = b.resolution → a.timestamp ≠ b.timestamp))
    (hprov : ∀ s r raw, hp s r = Except.ok raw → raw.Pairwise (fun a b => a.1 ≠ b.1)) :
    ∀ resp, (get_history hp now db symbol resolution limit start_ts end_ts).result
        = Except.ok resp →
      resp.history.Pairwise (fun a b => a.timestamp < b.timestamp) ∧
      (((get_history hp now db symbol resolution limit start_ts end_ts).providerCalls = 0 ∧
         resp.source = "cache") ∨
       ((get_history hp now db symbol resolution limit start_ts end_ts).providerCalls = 1 ∧
         resp.source = "alpha_vantage")) := by
  intro resp hok
  simp only [get_history] at hok ⊢
  by_cases hcache : limit ≤ (((db.historical.filter (fun r => r.symbol == upper symbol &&
      r.resolution == normalize_resolution resolution && inRange start_ts end_ts r)).mergeSort
        (fun a b => decide (b.timestamp ≤ a.timestamp))).take limit).length
  · rw [if_pos hcache] at hok ⊢
    dsimp only at hok ⊢
    injection hok with hresp
    subst hresp
    constructor
    · refine List.pairwise_map.mpr ?_
      exact sortDescTakeRev_pairwise HistRow.timestamp _ limit
        (filtered_hist_pairwise db (upper symbol) (normalize_resolution resolution)
          start_ts end_ts hdb)
    · exact Or.inl ⟨rfl, rfl⟩
  · rw [if_neg hcache] at hok ⊢
    cases hhist : get_historical_data hp (upper symbol) (normalize_resolution resolution) limit
        (MarketDataService.detect_market (upper symbol)) with
    | error e => rw [hhist] at hok; cases hok
    | ok cs =>
        rw [hhist] at hok
        dsimp only at hok
        injection hok with hresp
        subst hresp
        obtain ⟨raw, hraw, hcs⟩ := get_historical_data_ok _ _ _ _ _ _ hhist
        constructor
        · subst hcs
          refine List.pairwise_map.mpr ?_
          exact sortDescTakeRev_pairwise Prod.fst raw limit (hprov _ _ _ hraw)
        · exact Or.inr ⟨rfl, rfl⟩

def barC9 : Bar := ⟨1, 2, 0, 1, 5⟩

def hpC9 : HistProvider := fun _ _ => Except.ok [(5, barC9)]

def dbC9 : Db := ⟨0, [], [], [], []⟩

def respC9 : HistoryResponse :=
  ⟨"AAPL", MarketType.stock, "1d", 1, [⟨5, 1, 2, 0, 1, 5⟩], "alpha_vantage", 0⟩

/-- C9 is false as stated: a GetHistory served by a fresh provider fetch
tags the response `source = "alpha_vantage"`, not `"provider"`. -/
theorem history_source_counterexample :
    (get_history hpC9 0 dbC9 "AAPL" "1d" 1 none none).providerCalls = 1 ∧
    (get_history hpC9 0 dbC9 "AAPL" "1d" 1 none none).result.map HistoryResponse.source
      = Except.ok "alpha_vantage" ∧
    "alpha_vantage" ≠ "provider" := by
  have hu : upper "AAPL" = "AAPL" := by decide
  have hd : MarketDataService.detect_market "AAPL" = MarketType.stock := by decide
  refine ⟨?_, ?_, by decide⟩ <;>
    simp [get_history, get_historical_data, normalize_resolution, RESOLUTION_MAP, hu, hd,
      insertCandles, inRange, Except.map, hpC9, dbC9, SUPPORTED_STOCK_RESOLUTIONS]

/-- Closed instance of `history_ordered_and_tagged` at the same concrete
fetch. -/
theorem history_ordered_and_tagged_witness :
    respC9.history.Pairwise (fun a b => a.timestamp < b.timestamp) ∧
    (((get_history hpC9 0 dbC9 "AAPL" "1d" 1 none none).providerCalls = 0 ∧
       respC9.source = "cache") ∨
     ((get_history hpC9 0 dbC9 "AAPL" "1d" 1 none none).providerCalls = 1 ∧
       respC9.source = "alpha_vantage")) := by
  have hu : upper "AAPL" = "AAPL" := by decide
  have hd : MarketDataService.detect_market "AAPL" = MarketType.stock := by decide
  have hok : (get_history hpC9 0 dbC9 "AAPL" "1d" 1 none none).result = Except.ok respC9 := by
    simp [get_history, get_historical_data, normalize_resolution, RESOLUTION_MAP, hu, hd,
      insertCandles, inRange, hpC9, dbC9, respC9, SUPPORTED_STOCK_RESOLUTIONS, barC9]
  exact history_ordered_and_tagged hpC9 0 dbC9 "AAPL" "1d" 1 none none
    List.Pairwise.nil
    (fun s r raw h => by injection h with h2; rw [← h2]; decide)
    respC9 hok
